import Mathlib

/-!
Shallow embedding of the condition compiler and row access engine of
joelseq/sqliteadmin-go (sqliteadmin.go, queryhandlers.go).

The Go `Operator` and `LogicalOperator` types are string types, so they are
embedded as `String` together with the named constants.  The `Case` interface
realized by `Filter` and `Condition` becomes an inductive type.  The query
builders (`getCondition`, `getClause`, the SQL-building part of `queryTable`,
`batchDelete`, `editRow`, the `deleteRows` handler) are embedded as pure
functions that return the SQL text and the ordered bound values instead of
executing them; database state is an explicit catalog mapping table names to
their `PRAGMA table_info` column rows.
-/

namespace SqliteAdmin

/-- Operator token `eq` (sqliteadmin.go, `OperatorEquals`). -/
def OperatorEquals : String := "eq"

/-- Operator token `like` (sqliteadmin.go, `OperatorLike`). -/
def OperatorLike : String := "like"

/-- Operator token `neq` (sqliteadmin.go, `OperatorNotEquals`). -/
def OperatorNotEquals : String := "neq"

/-- Operator token `lt` (sqliteadmin.go, `OperatorLessThan`). -/
def OperatorLessThan : String := "lt"

/-- Operator token `lte` (sqliteadmin.go, `OperatorLessThanOrEquals`). -/
def OperatorLessThanOrEquals : String := "lte"

/-- Operator token `gt` (sqliteadmin.go, `OperatorGreaterThan`). -/
def OperatorGreaterThan : String := "gt"

/-- Operator token `gte` (sqliteadmin.go, `OperatorGreaterThanOrEquals`). -/
def OperatorGreaterThanOrEquals : String := "gte"

/-- Operator token `null` (sqliteadmin.go, `OperatorIsNull`). -/
def OperatorIsNull : String := "null"

/-- Operator token `notnull` (sqliteadmin.go, `OperatorIsNotNull`). -/
def OperatorIsNotNull : String := "notnull"

/-- Logical operator token `and` (sqliteadmin.go, `LogicalOperatorAnd`). -/
def LogicalOperatorAnd : String := "and"

/-- Logical operator token `or` (sqliteadmin.go, `LogicalOperatorOr`). -/
def LogicalOperatorOr : String := "or"

/-- All operator tokens recognized by `getClause` (queryhandlers.go). -/
def knownOperators : List String :=
  [OperatorEquals, OperatorLike, OperatorNotEquals, OperatorLessThan,
   OperatorLessThanOrEquals, OperatorGreaterThan, OperatorGreaterThanOrEquals,
   OperatorIsNull, OperatorIsNotNull]

/-- Go struct `Filter` (sqliteadmin.go): a leaf predicate. -/
structure Filter where
  column : String
  operator : String
  value : String

/-- The Go `Case` interface, realized by `Filter` and `Condition`
(sqliteadmin.go).  A `Condition` value used as a case carries its
`Cases` list and `LogicalOperator` string. -/
inductive Case where
  | filter (f : Filter)
  | condition (cases : List Case) (logicalOperator : String)

/-- Go struct `Condition` (sqliteadmin.go). -/
structure Condition where
  cases : List Case
  logicalOperator : String

/-- Go `getClause` (queryhandlers.go lines 293-316): lowers one `Filter`
to a SQL comparison; an unrecognized operator token hits the `default`
branch and yields the empty string. -/
def getClause (filter : Filter) : String :=
  if filter.operator = OperatorEquals then filter.column ++ " = ?"
  else if filter.operator = OperatorLike then
    filter.column ++ " LIKE \x27%\x27 || ? || \x27%\x27"
  else if filter.operator = OperatorNotEquals then filter.column ++ " != ?"
  else if filter.operator = OperatorLessThan then filter.column ++ " < ?"
  else if filter.operator = OperatorLessThanOrEquals then filter.column ++ " <= ?"
  else if filter.operator = OperatorGreaterThan then filter.column ++ " > ?"
  else if filter.operator = OperatorGreaterThanOrEquals then filter.column ++ " >= ?"
  else if filter.operator = OperatorIsNull then filter.column ++ " IS NULL"
  else if filter.operator = OperatorIsNotNull then filter.column ++ " IS NOT NULL"
  else ""

mutual

/-- Contribution of one case in the loop body of Go `getCondition`
(queryhandlers.go lines 278-288): a sub-`Condition` recurses and is wrapped
in parentheses, a `Filter` lowers via `getClause`; in both branches the
loop appends the bound values (for a filter, always `filter.Value`,
whatever the operator). -/
def caseCompile : Case → String × List String
  | .filter f => (getClause f, [f.value])
  | .condition cs lop =>
    let sub := casesCompile lop cs
    ("(" ++ sub.1 ++ ")", sub.2)

/-- The whole loop of Go `getCondition` over `condition.Cases`: index 0
gets no separator. -/
def casesCompile (lop : String) : List Case → String × List String
  | [] => ("", [])
  | c :: rest =>
    let hd := caseCompile c
    let tl := casesTail lop rest
    (hd.1 ++ tl.1, hd.2 ++ tl.2)

/-- The loop of Go `getCondition` from index 1 on: each iteration first
appends `" <LogicalOperator> "` verbatim, then the case fragment. -/
def casesTail (lop : String) : List Case → String × List String
  | [] => ("", [])
  | c :: rest =>
    let hd := caseCompile c
    let tl := casesTail lop rest
    (" " ++ lop ++ " " ++ hd.1 ++ tl.1, hd.2 ++ tl.2)

end

/-- Go `getCondition` (queryhandlers.go lines 270-291): compiles a
`Condition` to a WHERE fragment plus the ordered bound values. -/
def getCondition (condition : Condition) : String × List String :=
  casesCompile condition.logicalOperator condition.cases

/-- Rendering of Go `fmt.Sprintf("%q", tableName)`: wraps the name in double
quotes (escaping of special characters inside the name by `%q` is immaterial
to the properties proved here and is elided). -/
def goQuote (s : String) : String := "\"" ++ s ++ "\""

/-- The SQL-building part of Go `queryTable` (queryhandlers.go lines
205-221): with a non-nil condition having at least one case, build
`SELECT * FROM <table> WHERE <fragment> LIMIT <limit>` with the compiled
bound values; otherwise build
`SELECT * FROM "<table>" LIMIT <limit> OFFSET <offset>` with no bound
values. -/
def buildQuery (tableName : String) (condition : Option Condition)
    (limit offset : Int) : String × List String :=
  match condition with
  | some c =>
    if 0 < c.cases.length then
      let q := getCondition c
      ("SELECT * FROM " ++ tableName ++ " WHERE " ++ q.1 ++ " LIMIT " ++
        toString limit, q.2)
    else
      ("SELECT * FROM " ++ goQuote tableName ++ " LIMIT " ++ toString limit ++
        " OFFSET " ++ toString offset, [])
  | none =>
    ("SELECT * FROM " ++ goQuote tableName ++ " LIMIT " ++ toString limit ++
      " OFFSET " ++ toString offset, [])

/-- Concatenation of a list of strings (helper for stating what the
fragment-joining loop produces). -/
def strConcat : List String → String
  | [] => ""
  | s :: rest => s ++ strConcat rest

/-- The separator-first tail join: what `casesTail` produces on the
fragment side. -/
def joinSepAll (sep : String) : List String → String
  | [] => ""
  | x :: xs => sep ++ x ++ joinSepAll sep xs

/-- Joining fragments with a separator inserted before every fragment but
the first, exactly as the `getCondition` loop does. -/
def joinFrags (sep : String) : List String → String
  | [] => ""
  | x :: xs => x ++ joinSepAll sep xs

/-- Interleave a separator before each element except the first, as a list. -/
def sepPairs (sep : String) : List String → List String
  | [] => []
  | f :: fs => sep :: f :: sepPairs sep fs

/-- Concatenation of the per-case bound-value lists in loop order. -/
def concatAll : List (List String) → List String
  | [] => []
  | l :: ls => l ++ concatAll ls

/-- A decoded JSON value, the `interface\x7b\x7d` values that the dispatcher
hands to `toCondition` (objects are association lists with distinct keys,
mirroring Go maps). -/
inductive Val where
  | vnull
  | vbool (b : Bool)
  | vnum (n : Int)
  | vstr (s : String)
  | vlist (items : List Val)
  | vmap (fields : List (String × Val))

/-- Go map indexing `m[key]`: the value stored under `key`, if any. -/
def lookupVal (fields : List (String × Val)) (key : String) : Option Val :=
  (fields.find? (fun kv => kv.1 == key)).map (fun kv => kv.2)

/-- Go `m[key] != nil`: true when the key is present with a non-nil value
(an absent key and a stored nil both read as nil). -/
def goNonNil : Option Val → Bool
  | none => false
  | some .vnull => false
  | some _ => true

/-- One string field of `mapstructure.Decode` into `Filter`: an absent or
nil key leaves the zero value `""`; a string decodes to itself; any other
type is a decode error.  (mapstructure matches field names case
insensitively; the request keys are exactly the lowercase names used by
this API, so exact lookup models it.  Unknown keys are ignored.) -/
def decodeStringField (fields : List (String × Val)) (key : String) :
    Option String :=
  match lookupVal fields key with
  | none => some ""
  | some .vnull => some ""
  | some (.vstr s) => some s
  | some _ => none

/-- Go `mapstructure.Decode(c, &filter)` (queryhandlers.go line 548). -/
def decodeFilter (fields : List (String × Val)) : Option Filter :=
  match decodeStringField fields "column", decodeStringField fields "operator",
      decodeStringField fields "value" with
  | some c, some o, some v => some ⟨c, o, v⟩
  | _, _, _ => none

/-- Result of Go `toCondition`: `ok` for `(cond, true)`, `fail` for
`(nil, false)`, `panicked` for the runtime panic raised by the bare type
assertion `valMap["logicalOperator"].(string)` on a non-string value. -/
inductive TCResult where
  | ok (c : Condition)
  | fail
  | panicked

/-- Result of converting the `cases` array (the loop inside `toCondition`). -/
inductive CasesResult where
  | ok (cases : List Case)
  | fail
  | panicked

/-- The tail of Go `toCondition` (queryhandlers.go lines 558-562): read
`logicalOperator` and convert it with the unchecked type assertion
`.(string)`; an absent or nil key leaves the zero value `""`. -/
def finishCondition (fields : List (String × Val)) (cases : List Case) :
    TCResult :=
  match lookupVal fields "logicalOperator" with
  | none => .ok ⟨cases, ""⟩
  | some .vnull => .ok ⟨cases, ""⟩
  | some (.vstr s) => .ok ⟨cases, s⟩
  | some _ => .panicked

mutual

/-- Go `toCondition` (queryhandlers.go lines 516-563): the input must be a
map; a present non-nil `cases` value must be an array whose elements all
convert; then the `logicalOperator` string is taken verbatim. -/
def toCondition : Val → TCResult
  | .vmap fields =>
    (match h : lookupVal fields "cases" with
     | some (.vlist cs) =>
       match toConditionCases cs with
       | .fail => .fail
       | .panicked => .panicked
       | .ok parsed => finishCondition fields parsed
     | some .vnull => finishCondition fields []
     | none => finishCondition fields []
     | some _ => .fail)
  | _ => .fail
termination_by v => sizeOf v
decreasing_by
simp_wf
unfold lookupVal at h
rw [Option.map_eq_some'] at h
obtain ⟨kv, hfind, hv⟩ := h
have hlt := List.sizeOf_lt_of_mem (List.mem_of_find?_eq_some hfind)
obtain ⟨k, v⟩ := kv
simp only at hv
subst hv
simp only [Prod.mk.sizeOf_spec, Val.vlist.sizeOf_spec] at hlt
omega

/-- The loop over the `cases` array inside Go `toCondition` (lines
532-555): each case must be a map; a case with a non-nil
`logicalOperator` recurses as a sub-condition, any other case is decoded
as a `Filter` by mapstructure; the first failure aborts. -/
def toConditionCases : List Val → CasesResult
  | [] => .ok []
  | c :: rest =>
    match c with
    | .vmap caseFields =>
      if goNonNil (lookupVal caseFields "logicalOperator") then
        match toCondition (.vmap caseFields) with
        | .fail => .fail
        | .panicked => .panicked
        | .ok sub =>
          match toConditionCases rest with
          | .fail => .fail
          | .panicked => .panicked
          | .ok others =>
            .ok (.condition sub.cases sub.logicalOperator :: others)
      else
        match decodeFilter caseFields with
        | none => .fail
        | some f =>
          match toConditionCases rest with
          | .fail => .fail
          | .panicked => .panicked
          | .ok others => .ok (.filter f :: others)
    | _ => .fail
termination_by l => sizeOf l
decreasing_by
all_goals simp_wf
all_goals omega

end

/-- One row of `PRAGMA table_info` as read by Go `getTableInfo`
(queryhandlers.go lines 390-409). -/
structure ColumnInfo where
  cid : Int
  name : String
  dataType : String
  notNull : Int
  pk : Int

/-- The database catalog: table names with their `PRAGMA table_info` rows,
in declaration order.  This is the state `getTableInfo` and
`checkTableExists` observe. -/
abbrev Catalog := List (String × List ColumnInfo)

/-- Catalog lookup: the column rows of a table, if the table exists. -/
def lookupTable (db : Catalog) (tableName : String) :
    Option (List ColumnInfo) :=
  (db.find? (fun t => t.1 == tableName)).map (fun t => t.2)

/-- Go `checkTableExists` (queryhandlers.go lines 173-182): counts matching
`sqlite_master` rows, i.e. catalog membership. -/
def checkTableExists (db : Catalog) (tableName : String) : Bool :=
  (lookupTable db tableName).isSome

/-- The primary-key scan shared by Go `batchDelete` and `editRow`
(queryhandlers.go lines 333-339 and 436-442): the name of the first column
whose `pk` field equals 1, or `""` when none matches. -/
def findPrimaryKey : List ColumnInfo → String
  | [] => ""
  | c :: rest => if c.pk = 1 then c.name else findPrimaryKey rest

/-- Outcome of Go `batchDelete`: no statement for empty ids, one executed
DELETE statement with its bound ids, or an error before any statement. -/
inductive DeleteResult where
  | noop
  | exec (query : String) (binds : List String)
  | err (msg : String)

/-- Go `batchDelete` (queryhandlers.go lines 318-367): empty ids return
immediately; otherwise resolve the primary key from `getTableInfo` and
build `DELETE FROM <table> WHERE <pk> IN (?,...,?)` with one placeholder
per id. -/
def batchDelete (db : Catalog) (tableName : String) (ids : List String) :
    DeleteResult :=
  if ids.length = 0 then .noop
  else
    match lookupTable db tableName with
    | none =>
      .err ("error getting primary key for delete: table " ++ tableName ++
        " does not exist")
    | some columns =>
      let primaryKey := findPrimaryKey columns
      if primaryKey = "" then
        .err ("table " ++ tableName ++ " does not have a primary key")
      else
        .exec ("DELETE FROM " ++ tableName ++ " WHERE " ++ primaryKey ++
          " IN (" ++ String.intercalate "," (ids.map (fun _ => "?")) ++ ")")
          ids

/-- Outcome of Go `editRow`: one executed UPDATE statement with its bound
values, or an error before any statement. -/
inductive EditResult where
  | exec (query : String) (binds : List String)
  | err (msg : String)

/-- Go map indexing on the row mapping.  Go maps have unique keys and
unspecified iteration order; the row is modelled as an association list
with distinct keys, iterated in list order. -/
def lookupRow (row : List (String × String)) (key : String) :
    Option String :=
  (row.find? (fun kv => kv.1 == key)).map (fun kv => kv.2)

/-- Go `editRow` (queryhandlers.go lines 426-489): resolve the primary key,
require the row to contain it, build
`UPDATE <table> SET <k> = ?,... WHERE <pk> = ?` from the non-key entries
of the row, and bind the primary-key value last. -/
def editRow (db : Catalog) (tableName : String)
    (row : List (String × String)) : EditResult :=
  match lookupTable db tableName with
  | none =>
    .err ("error getting primary key for edit: table " ++ tableName ++
      " does not exist")
  | some columns =>
    let primaryKey := findPrimaryKey columns
    if primaryKey = "" then
      .err ("table " ++ tableName ++ " does not have a primary key")
    else
      match lookupRow row primaryKey with
      | none => .err "row does not contain primary key"
      | some pkVal =>
        let nonPKColumns := row.filter (fun kv => kv.1 != primaryKey)
        let placeholders := nonPKColumns.map (fun kv => kv.1 ++ " = ?")
        let values := nonPKColumns.map (fun kv => kv.2) ++ [pkVal]
        .exec ("UPDATE " ++ tableName ++ " SET " ++
          String.intercalate "," placeholders ++ " WHERE " ++ primaryKey ++
          " = ?") values

/-- Go `convertToStrSlice` inner loop: every element must be a string. -/
def strSlice : List Val → Option (List String)
  | [] => some []
  | .vstr s :: rest => (strSlice rest).map (fun l => s :: l)
  | _ => none

/-- Go `convertToStrSlice` (queryhandlers.go lines 496-514): the value must
be a slice of strings; a missing parameter (nil) fails the slice type
assertion. -/
def convertToStrSlice : Option Val → Option (List String)
  | some (.vlist items) => strSlice items
  | _ => none

/-- What a handler invocation produced: the HTTP status code and message
written to the response, and the DELETE statements actually executed
against the database. -/
structure HandlerOutcome where
  status : Int
  message : String
  issued : List String

/-- Go handler `deleteRows` (queryhandlers.go lines 109-145): parse
`tableName` and `ids` (each failure is a 400), reject a table missing from
the catalog with 400 `invalid input`, then run `batchDelete`, whose error
is a 500. -/
def deleteRowsHandler (db : Catalog) (params : List (String × Val)) :
    HandlerOutcome :=
  match lookupVal params "tableName" with
  | some (.vstr table) =>
    (match convertToStrSlice (lookupVal params "ids") with
     | none => ⟨400, "Bad request: invalid or missing ids", []⟩
     | some ids =>
       if checkTableExists db table then
         match batchDelete db table ids with
         | .err _ => ⟨500, "Something went wrong", []⟩
         | .noop => ⟨200, "ok", []⟩
         | .exec q _ => ⟨200, "ok", [q]⟩
       else ⟨400, "Bad request: invalid input", []⟩)
  | _ => ⟨400, "Bad request: missing table name", []⟩

/-- Count of `?` parameter placeholders in a SQL fragment. -/
def countQ (s : String) : Nat := s.data.count '?'

/-- Whether the pattern occurs at the head of the character list. -/
def leadEq : List Char → List Char → Bool
  | [], _ => true
  | _ :: _, [] => false
  | p :: ps, x :: xs => p == x && leadEq ps xs

/-- Whether the pattern occurs anywhere in the character list. -/
def occursIn (pat : List Char) : List Char → Bool
  | [] => leadEq pat []
  | x :: xs => leadEq pat (x :: xs) || occursIn pat xs

/-- Whether one string contains another as a substring. -/
def strHas (s pat : String) : Bool := occursIn pat.data s.data

/-- A `Filter`-shaped request map with the given field values. -/
def mkFilterVal (column operator value : String) : Val :=
  .vmap [("column", .vstr column), ("operator", .vstr operator),
         ("value", .vstr value)]

/-- The column rows of the test-suite `users` table
(sqliteadmin_test.go `seedData`): single primary key `id`. -/
def usersColumns : List ColumnInfo :=
  [⟨0, "id", "INTEGER", 1, 1⟩, ⟨1, "name", "TEXT", 1, 0⟩,
   ⟨2, "email", "TEXT", 0, 0⟩]

/-- A catalog holding only the `users` table. -/
def usersCatalog : Catalog := [("users", usersColumns)]

/-- A catalog whose table `t` has the composite primary key `(a, b)`:
`PRAGMA table_info` reports `pk = 1` for `a` and `pk = 2` for `b`. -/
def compositeCatalog : Catalog :=
  [("t", [⟨0, "a", "INTEGER", 1, 1⟩, ⟨1, "b", "INTEGER", 1, 2⟩])]

/-! Unfolding lemmas for the association-list lookups. -/

theorem lookupVal_nil (key : String) : lookupVal [] key = none := rfl

theorem lookupVal_cons (k : String) (v : Val) (rest : List (String × Val))
    (key : String) :
    lookupVal ((k, v) :: rest) key =
      if k == key then some v else lookupVal rest key := by
  cases h : (k == key) <;> simp [lookupVal, List.find?_cons, h]

/-! Case-split lemmas for `toCondition` (its top-level match names its
scrutinee, so these replace direct rewriting). -/

theorem toCondition_vmap_vlist (fields : List (String × Val)) (cs : List Val)
    (h : lookupVal fields "cases" = some (.vlist cs)) :
    toCondition (.vmap fields) =
      (match toConditionCases cs with
       | .fail => .fail
       | .panicked => .panicked
       | .ok parsed => finishCondition fields parsed) := by
  simp only [toCondition]
  split
  · rename_i cs2 heq
    rw [h] at heq
    injection heq with heq2
    injection heq2 with heq3
    rw [heq3]
  · rename_i heq
    rw [h] at heq
    injection heq with heq2
    exact Val.noConfusion heq2
  · rename_i heq
    rw [h] at heq
    exact Option.noConfusion heq
  · rename_i val hvlist hvnull heq
    rw [h] at heq
    injection heq with heq2
    exact (hvlist cs heq2.symm).elim

theorem toCondition_vmap_skip (fields : List (String × Val))
    (h : lookupVal fields "cases" = none ∨
      lookupVal fields "cases" = some .vnull) :
    toCondition (.vmap fields) = finishCondition fields [] := by
  simp only [toCondition]
  split
  · rename_i cs2 heq
    rcases h with h | h <;> rw [h] at heq
    · exact Option.noConfusion heq
    · injection heq with heq2
      exact Val.noConfusion heq2
  · rfl
  · rfl
  · rename_i val hvlist hvnull heq
    rcases h with h | h <;> rw [h] at heq
    · exact Option.noConfusion heq
    · injection heq with heq2
      exact (hvnull heq2.symm).elim

theorem toCondition_vmap_badcases (fields : List (String × Val)) (v : Val)
    (h : lookupVal fields "cases" = some v) (h1 : v ≠ .vnull)
    (h2 : ∀ xs, v ≠ .vlist xs) :
    toCondition (.vmap fields) = .fail := by
  simp only [toCondition]
  split
  · rename_i cs2 heq
    rw [h] at heq
    injection heq with heq2
    exact absurd heq2 (h2 cs2)
  · rename_i heq
    rw [h] at heq
    injection heq with heq2
    exact absurd heq2 h1
  · rename_i heq
    rw [h] at heq
    exact Option.noConfusion heq
  · rfl

theorem toCondition_not_vmap (v : Val) (h : ∀ kvs, v ≠ .vmap kvs) :
    toCondition v = .fail := by
  cases v with
  | vmap kvs => exact absurd rfl (h kvs)
  | vnull => simp [toCondition]
  | vbool b => simp [toCondition]
  | vnum n => simp [toCondition]
  | vstr s => simp [toCondition]
  | vlist items => simp [toCondition]

/-! Characterization of the fragment-joining loop of `getCondition`. -/

theorem casesTail_eq (lop : String) (cs : List Case) :
    casesTail lop cs =
      (joinSepAll (" " ++ lop ++ " ") (cs.map fun c => (caseCompile c).1),
       concatAll (cs.map fun c => (caseCompile c).2)) := by
  induction cs with
  | nil => simp [casesTail, joinSepAll, concatAll]
  | cons c rest ih =>
    simp [casesTail, joinSepAll, concatAll, ih, String.append_assoc]

theorem casesCompile_eq (lop : String) (cs : List Case) :
    casesCompile lop cs =
      (joinFrags (" " ++ lop ++ " ") (cs.map fun c => (caseCompile c).1),
       concatAll (cs.map fun c => (caseCompile c).2)) := by
  cases cs with
  | nil => simp [casesCompile, joinFrags, concatAll]
  | cons c rest => simp [casesCompile, joinFrags, concatAll, casesTail_eq]

theorem getCondition_eq (lop : String) (cs : List Case) :
    getCondition ⟨cs, lop⟩ =
      (joinFrags (" " ++ lop ++ " ") (cs.map fun c => (caseCompile c).1),
       concatAll (cs.map fun c => (caseCompile c).2)) := by
  unfold getCondition
  exact casesCompile_eq lop cs

theorem intersperse_eq_sepPairs (sep x : String) (xs : List String) :
    List.intersperse sep (x :: xs) = x :: sepPairs sep xs := by
  induction xs generalizing x with
  | nil => simp [sepPairs]
  | cons y ys ih => rw [List.intersperse_cons_cons, sepPairs, ih]

theorem joinSepAll_eq_strConcat (sep : String) (xs : List String) :
    joinSepAll sep xs = strConcat (sepPairs sep xs) := by
  induction xs with
  | nil => rfl
  | cons y ys ih =>
    simp [joinSepAll, sepPairs, strConcat, ih, String.append_assoc]

theorem joinFrags_eq_strConcat (sep : String) (fs : List String) :
    joinFrags sep fs = strConcat (List.intersperse sep fs) := by
  cases fs with
  | nil => rfl
  | cons x xs =>
    rw [intersperse_eq_sepPairs]
    simp [joinFrags, strConcat, joinSepAll_eq_strConcat]

theorem count_sepPairs (sep : String) (xs : List String) (h : sep ∉ xs) :
    (sepPairs sep xs).count sep = xs.length := by
  induction xs with
  | nil => simp [sepPairs]
  | cons y ys ih =>
    rw [List.mem_cons] at h
    push_neg at h
    simp [sepPairs, List.count_cons, h.1, ih h.2]

theorem count_intersperse (sep x : String) (xs : List String)
    (h : sep ∉ x :: xs) :
    (List.intersperse sep (x :: xs)).count sep = xs.length := by
  rw [intersperse_eq_sepPairs]
  rw [List.mem_cons] at h
  push_neg at h
  simp [List.count_cons, h.1, count_sepPairs sep xs h.2]

/-- C3: compiling `Condition(cases:[A, Condition(cases:[B,C], op:or)], op:and)`
wraps the inner group in parentheses, yielding the fragment
`A and (B or C)` with the bound values spliced in order; in general a
nested-Condition case is compiled recursively, parenthesized, and every
node's fragment is its case fragments joined by its own operator with the
per-case bound values concatenated in place, at any depth. -/
theorem nestedConditionParenthesized :
    (∀ A B C : Filter,
      getCondition ⟨[.filter A, .condition [.filter B, .filter C]
          LogicalOperatorOr], LogicalOperatorAnd⟩ =
        (getClause A ++ " and " ++ "(" ++ getClause B ++ " or " ++
          getClause C ++ ")", [A.value, B.value, C.value])) ∧
    (∀ (subCases : List Case) (subLop : String),
      caseCompile (.condition subCases subLop) =
        ("(" ++ (getCondition ⟨subCases, subLop⟩).1 ++ ")",
         (getCondition ⟨subCases, subLop⟩).2)) ∧
    (∀ (lop : String) (cs : List Case),
      getCondition ⟨cs, lop⟩ =
        (joinFrags (" " ++ lop ++ " ") (cs.map fun c => (caseCompile c).1),
         concatAll (cs.map fun c => (caseCompile c).2))) := by
  refine ⟨?_, ?_, ?_⟩
  · intro A B C
    simp [getCondition, casesCompile, casesTail, caseCompile,
      LogicalOperatorAnd, LogicalOperatorOr, String.append_assoc]
    rw [← String.append_assoc " and " "("]
    simp
  · intro subCases subLop
    simp [caseCompile, getCondition]
  · intro lop cs
    exact getCondition_eq lop cs

/-- C10: the fragment of a node with cases `c0 :: cs` is exactly the case
fragments interleaved with the joining token `" <op> "`, which therefore
occurs exactly `n - 1` times for `n` cases (and not at all for a single
case), and `toCondition` installs any client-supplied `logicalOperator`
string verbatim — without validating it to be `and` or `or` — after which
`getCondition` splices it verbatim between fragments. -/
theorem logicalOperatorJoining :
    (∀ (lop : String) (c0 : Case) (cs : List Case),
      (getCondition ⟨c0 :: cs, lop⟩).1 =
        strConcat (List.intersperse (" " ++ lop ++ " ")
          ((c0 :: cs).map fun x => (caseCompile x).1))) ∧
    (∀ (lop : String) (c0 : Case) (cs : List Case),
      (" " ++ lop ++ " ") ∉ ((c0 :: cs).map fun x => (caseCompile x).1) →
      (List.intersperse (" " ++ lop ++ " ")
          ((c0 :: cs).map fun x => (caseCompile x).1)).count
        (" " ++ lop ++ " ") = cs.length) ∧
    (∀ (lop : String) (c0 : Case),
      getCondition ⟨[c0], lop⟩ = caseCompile c0) ∧
    (∀ (s col1 op1 val1 col2 op2 val2 : String),
      toCondition (.vmap [("cases",
          .vlist [mkFilterVal col1 op1 val1, mkFilterVal col2 op2 val2]),
          ("logicalOperator", .vstr s)]) =
        .ok ⟨[.filter ⟨col1, op1, val1⟩, .filter ⟨col2, op2, val2⟩], s⟩) ∧
    (∀ (s : String) (f1 f2 : Filter),
      (getCondition ⟨[.filter f1, .filter f2], s⟩).1 =
        getClause f1 ++ " " ++ s ++ " " ++ getClause f2) := by
  refine ⟨?_, ?_, ?_, ?_, ?_⟩
  · intro lop c0 cs
    rw [getCondition_eq, joinFrags_eq_strConcat]
  · intro lop c0 cs h
    rw [List.map_cons] at h ⊢
    rw [count_intersperse _ _ _ h]
    simp
  · intro lop c0
    simp [getCondition, casesCompile, casesTail]
  · intro s col1 op1 val1 col2 op2 val2
    rw [toCondition_vmap_vlist _
      [mkFilterVal col1 op1 val1, mkFilterVal col2 op2 val2]
      (by simp [lookupVal_cons, mkFilterVal])]
    simp [toConditionCases, finishCondition, lookupVal_cons, lookupVal_nil,
      goNonNil, decodeFilter, decodeStringField, mkFilterVal]
  · intro s f1 f2
    simp [getCondition, casesCompile, casesTail, caseCompile,
      String.append_assoc]

/-- C1 counterexample: compiling a lone `is-null` filter produces the
fragment `email IS NULL` yet still emits one bound value (the filter's
`Value` field), not zero — `getCondition` appends `filter.Value`
unconditionally. -/
theorem isNullFilterStillBindsValue :
    getCondition ⟨[.filter ⟨"email", OperatorIsNull, ""⟩],
      LogicalOperatorAnd⟩ = ("email IS NULL", [""]) ∧
    (getCondition ⟨[.filter ⟨"email", OperatorIsNull, ""⟩],
      LogicalOperatorAnd⟩).2 ≠ [] := by
  have h : getCondition ⟨[.filter ⟨"email", OperatorIsNull, ""⟩],
      LogicalOperatorAnd⟩ = ("email IS NULL", [""]) := by
    simp [getCondition, casesCompile, casesTail, caseCompile, getClause,
      OperatorEquals, OperatorLike, OperatorNotEquals, OperatorLessThan,
      OperatorLessThanOrEquals, OperatorGreaterThan,
      OperatorGreaterThanOrEquals, OperatorIsNull]
  refine ⟨h, ?_⟩
  rw [h]
  simp

/-- C1 (amended): the fragment of a null-check filter contains no `?`
placeholder while every other known operator's fragment contains exactly
one, but the compiler contributes the filter's value to the bound-value
list unconditionally, so every filter emits exactly one bound value
regardless of operator. -/
theorem filterPlaceholderAndBindCounts (f : Filter)
    (hcol : countQ f.column = 0) :
    (caseCompile (.filter f)).2 = [f.value] ∧
    ((f.operator = OperatorIsNull ∨ f.operator = OperatorIsNotNull) →
      countQ (getClause f) = 0) ∧
    (f.operator ∈ [OperatorEquals, OperatorLike, OperatorNotEquals,
        OperatorLessThan, OperatorLessThanOrEquals, OperatorGreaterThan,
        OperatorGreaterThanOrEquals] →
      countQ (getClause f) = 1) := by
  have hc : f.column.data.count '?' = 0 := hcol
  refine ⟨by simp [caseCompile], ?_, ?_⟩
  · rintro (hop | hop) <;>
      simp [getClause, hop, OperatorEquals, OperatorLike, OperatorNotEquals,
        OperatorLessThan, OperatorLessThanOrEquals, OperatorGreaterThan,
        OperatorGreaterThanOrEquals, OperatorIsNull, OperatorIsNotNull,
        countQ, String.data_append, List.count_append, hc]
  · intro hop
    simp only [List.mem_cons, List.not_mem_nil, or_false] at hop
    rcases hop with hop | hop | hop | hop | hop | hop | hop <;>
      simp [getClause, hop, OperatorEquals, OperatorLike, OperatorNotEquals,
        OperatorLessThan, OperatorLessThanOrEquals, OperatorGreaterThan,
        OperatorGreaterThanOrEquals, OperatorIsNull, OperatorIsNotNull,
        countQ, String.data_append, List.count_append, hc]

/-- Witness for the amended C1 at the filter `email is-null`. -/
theorem filterPlaceholderAndBindCountsWitness :
    countQ "email" = 0 ∧
    (caseCompile (.filter ⟨"email", OperatorIsNull, ""⟩)).2 = [""] ∧
    countQ (getClause ⟨"email", OperatorIsNull, ""⟩) = 0 := by
  have h := filterPlaceholderAndBindCounts ⟨"email", OperatorIsNull, ""⟩
    (by decide)
  exact ⟨by decide, h.1, h.2.1 (Or.inl rfl)⟩

/-- C2 counterexample: a filter carrying the unrecognized operator token
`bogus` is accepted by `toCondition` with no structural failure, and the
row reader then builds the malformed SQL text
`SELECT * FROM users WHERE  LIMIT 100` (empty clause, value still bound)
and passes it to execution. -/
theorem unknownOperatorEmitsFragment :
    toCondition (.vmap [("cases", .vlist [mkFilterVal "id" "bogus" "1"]),
        ("logicalOperator", .vstr "and")]) =
      .ok ⟨[.filter ⟨"id", "bogus", "1"⟩], "and"⟩ ∧
    buildQuery "users" (some ⟨[.filter ⟨"id", "bogus", "1"⟩], "and"⟩) 100 0 =
      ("SELECT * FROM users WHERE  LIMIT 100", ["1"]) := by
  constructor
  · rw [toCondition_vmap_vlist _ [mkFilterVal "id" "bogus" "1"]
      (by simp [lookupVal_cons, mkFilterVal])]
    simp [toConditionCases, finishCondition, lookupVal_cons, lookupVal_nil,
      goNonNil, decodeFilter, decodeStringField, mkFilterVal]
  · have h : getCondition ⟨[.filter ⟨"id", "bogus", "1"⟩], "and"⟩ =
        ("", ["1"]) := by
      simp [getCondition, casesCompile, casesTail, caseCompile, getClause,
        OperatorEquals, OperatorLike, OperatorNotEquals, OperatorLessThan,
        OperatorLessThanOrEquals, OperatorGreaterThan,
        OperatorGreaterThanOrEquals, OperatorIsNull, OperatorIsNotNull]
    simp only [buildQuery, h]
    rfl

/-- C2 (amended): `toCondition` signals a structural failure when the
input is not a map, when a present non-nil `cases` value is not a list,
or when a case is not a map; but a filter case carrying an unknown
operator token is accepted without error, and `getClause` lowers it to
the empty clause, so a malformed SQL fragment is still produced. -/
theorem conditionStructuralFailures :
    (∀ (v : Val), (∀ kvs, v ≠ .vmap kvs) → toCondition v = .fail) ∧
    (∀ (fields : List (String × Val)) (v : Val),
      lookupVal fields "cases" = some v → v ≠ .vnull →
      (∀ xs, v ≠ .vlist xs) → toCondition (.vmap fields) = .fail) ∧
    (∀ (c : Val) (rest : List Val) (fields : List (String × Val)),
      lookupVal fields "cases" = some (.vlist (c :: rest)) →
      (∀ kvs, c ≠ .vmap kvs) → toCondition (.vmap fields) = .fail) ∧
    (∀ (col op val lop : String),
      toCondition (.vmap [("cases", .vlist [mkFilterVal col op val]),
          ("logicalOperator", .vstr lop)]) =
        .ok ⟨[.filter ⟨col, op, val⟩], lop⟩) ∧
    (∀ (col op val : String), op ∉ knownOperators →
      getClause ⟨col, op, val⟩ = "") := by
  refine ⟨toCondition_not_vmap, toCondition_vmap_badcases, ?_, ?_, ?_⟩
  · intro c rest fields hl hc
    rw [toCondition_vmap_vlist _ _ hl]
    have h : toConditionCases (c :: rest) = .fail := by
      cases c with
      | vmap kvs => exact absurd rfl (hc kvs)
      | vnull => simp [toConditionCases]
      | vbool b => simp [toConditionCases]
      | vnum n => simp [toConditionCases]
      | vstr s => simp [toConditionCases]
      | vlist items => simp [toConditionCases]
    rw [h]
  · intro col op val lop
    rw [toCondition_vmap_vlist _ [mkFilterVal col op val]
      (by simp [lookupVal_cons, mkFilterVal])]
    simp [toConditionCases, finishCondition, lookupVal_cons, lookupVal_nil,
      goNonNil, decodeFilter, decodeStringField, mkFilterVal]
  · intro col op val hop
    simp only [knownOperators, List.mem_cons, List.not_mem_nil, or_false,
      not_or] at hop
    obtain ⟨h1, h2, h3, h4, h5, h6, h7, h8, h9⟩ := hop
    simp [getClause, h1, h2, h3, h4, h5, h6, h7, h8, h9]

/-- Witness for the amended C2: a non-map input, a non-list `cases`
value, a non-map case, and the accepted `bogus` operator. -/
theorem conditionStructuralFailuresWitness :
    toCondition (.vstr "x") = .fail ∧
    toCondition (.vmap [("cases", .vstr "x")]) = .fail ∧
    toCondition (.vmap [("cases", .vlist [.vstr "x"])]) = .fail ∧
    toCondition (.vmap [("cases", .vlist [mkFilterVal "id" "bogus" "1"]),
        ("logicalOperator", .vstr "or")]) =
      .ok ⟨[.filter ⟨"id", "bogus", "1"⟩], "or"⟩ ∧
    getClause ⟨"id", "bogus", "1"⟩ = "" := by
  refine ⟨conditionStructuralFailures.1 _ (fun kvs h => Val.noConfusion h),
    conditionStructuralFailures.2.1 _ (.vstr "x")
      (by simp [lookupVal_cons]) (fun h => Val.noConfusion h)
      (fun xs h => Val.noConfusion h),
    conditionStructuralFailures.2.2.1 (.vstr "x") [] _
      (by simp [lookupVal_cons]) (fun kvs h => Val.noConfusion h),
    conditionStructuralFailures.2.2.2.1 "id" "bogus" "1" "or",
    conditionStructuralFailures.2.2.2.2 "id" "bogus" "1" (by decide)⟩

/-- Witness for C10 at the two-case node
`(a eq 1) and (b eq 2)`: the joining token ` and ` occurs exactly once. -/
theorem logicalOperatorJoiningWitness :
    (" " ++ "and" ++ " ") ∉
      (([Case.filter ⟨"a", "eq", "1"⟩, Case.filter ⟨"b", "eq", "2"⟩]).map
        fun x => (caseCompile x).1) ∧
    (List.intersperse (" " ++ "and" ++ " ")
        (([Case.filter ⟨"a", "eq", "1"⟩, Case.filter ⟨"b", "eq", "2"⟩]).map
          fun x => (caseCompile x).1)).count (" " ++ "and" ++ " ") = 1 := by
  have hne : (" " ++ "and" ++ " ") ∉
      (([Case.filter ⟨"a", "eq", "1"⟩, Case.filter ⟨"b", "eq", "2"⟩]).map
        fun x => (caseCompile x).1) := by
    simp [caseCompile, getClause, OperatorEquals]
  exact ⟨hne, logicalOperatorJoining.2.1 "and" (.filter ⟨"a", "eq", "1"⟩)
    [.filter ⟨"b", "eq", "2"⟩] hne⟩

/-- C4: a `Condition` with empty `cases` compiles to the empty fragment
with no bound values, and the row reader then builds the unfiltered query
(`LIMIT`/`OFFSET`, no `WHERE` clause) — the condition is a no-op, not
match-nothing. -/
theorem emptyCasesIsNoFilter :
    ∀ (c : Condition), c.cases = [] →
      getCondition c = ("", []) ∧
      (∀ (t : String) (l o : Int),
        buildQuery t (some c) l o =
          ("SELECT * FROM " ++ goQuote t ++ " LIMIT " ++ toString l ++
            " OFFSET " ++ toString o, [])) ∧
      strHas (buildQuery "users" (some c) 100 0).1 "WHERE" = false := by
  intro c hc
  obtain ⟨cs, lop⟩ := c
  simp only at hc
  subst hc
  refine ⟨by simp [getCondition, casesCompile], ?_, ?_⟩
  · intro t l o
    rfl
  · rfl

/-- Witness for C4 at the empty `and` condition. -/
theorem emptyCasesIsNoFilterWitness :
    getCondition ⟨[], "and"⟩ = ("", []) ∧
    buildQuery "users" (some ⟨[], "and"⟩) 100 0 =
      ("SELECT * FROM " ++ goQuote "users" ++ " LIMIT " ++ toString (100 : Int)
        ++ " OFFSET " ++ toString (0 : Int), []) ∧
    strHas (buildQuery "users" (some ⟨[], "and"⟩) 100 0).1 "WHERE" = false := by
  have h := emptyCasesIsNoFilter ⟨[], "and"⟩ rfl
  exact ⟨h.1, h.2.1 "users" 100 0, h.2.2⟩

/-- C5: with a present non-empty condition the row reader builds
`SELECT * FROM <table> WHERE <fragment> LIMIT <limit>` and no `OFFSET`
clause; with the condition absent or empty it builds
`SELECT * FROM "<table>" LIMIT <limit> OFFSET <offset>`. -/
theorem rowReaderQueryShapes :
    (∀ (t : String) (c : Condition) (l o : Int), c.cases ≠ [] →
      buildQuery t (some c) l o =
        ("SELECT * FROM " ++ t ++ " WHERE " ++ (getCondition c).1 ++
          " LIMIT " ++ toString l, (getCondition c).2)) ∧
    (∀ (t : String) (l o : Int),
      buildQuery t none l o =
        ("SELECT * FROM " ++ goQuote t ++ " LIMIT " ++ toString l ++
          " OFFSET " ++ toString o, [])) ∧
    (∀ (t : String) (c : Condition) (l o : Int), c.cases = [] →
      buildQuery t (some c) l o = buildQuery t none l o) ∧
    strHas (buildQuery "users"
        (some ⟨[.filter ⟨"id", OperatorEquals, "1"⟩], LogicalOperatorAnd⟩)
        100 7).1 "OFFSET" = false ∧
    strHas (buildQuery "users" none 100 7).1 "WHERE" = false := by
  refine ⟨?_, ?_, ?_, ?_, ?_⟩
  · intro t c l o hc
    obtain ⟨cs, lop⟩ := c
    cases cs with
    | nil => exact absurd rfl hc
    | cons c0 rest => simp [buildQuery]
  · intro t l o
    rfl
  · intro t c l o hc
    obtain ⟨cs, lop⟩ := c
    simp only at hc
    subst hc
    rfl
  · have h : getCondition ⟨[.filter ⟨"id", OperatorEquals, "1"⟩],
        LogicalOperatorAnd⟩ = ("id = ?", ["1"]) := by
      simp [getCondition, casesCompile, casesTail, caseCompile, getClause,
        OperatorEquals]
    simp only [buildQuery, h]
    rfl
  · rfl

/-- Witness for C5 at a one-filter condition. -/
theorem rowReaderQueryShapesWitness :
    buildQuery "users"
        (some ⟨[.filter ⟨"id", OperatorEquals, "1"⟩], LogicalOperatorAnd⟩)
        100 7 =
      ("SELECT * FROM " ++ "users" ++ " WHERE " ++
        (getCondition ⟨[.filter ⟨"id", OperatorEquals, "1"⟩],
          LogicalOperatorAnd⟩).1 ++ " LIMIT " ++ toString (100 : Int),
       (getCondition ⟨[.filter ⟨"id", OperatorEquals, "1"⟩],
          LogicalOperatorAnd⟩).2) ∧
    buildQuery "users" (some ⟨[], LogicalOperatorAnd⟩) 100 7 =
      buildQuery "users" none 100 7 := by
  exact ⟨rowReaderQueryShapes.1 "users" _ 100 7 (by simp),
    rowReaderQueryShapes.2.2.1 "users" ⟨[], LogicalOperatorAnd⟩ 100 7 rfl⟩

/-- Helper: the keys of the filtered row are the filtered keys. -/
theorem mapFst_filter (p : String → Bool) (row : List (String × String)) :
    ((row.filter fun kv => p kv.1).map fun kv => kv.1) =
      (row.map fun kv => kv.1).filter p := by
  induction row with
  | nil => rfl
  | cons kv rest ih =>
    by_cases h : p kv.1 <;> simp [List.filter_cons, h, ih]

/-- C6: a well-formed `updateRow` call assigns exactly the non-key columns
present in the row mapping (absent columns are not assigned and the
primary-key column is never assigned), and binds the primary-key value
last, after the SET values. -/
theorem updateRowPartialSemantics :
    ∀ (db : Catalog) (t : String) (cols : List ColumnInfo)
      (row : List (String × String)) (pkVal : String),
      lookupTable db t = some cols →
      findPrimaryKey cols ≠ "" →
      lookupRow row (findPrimaryKey cols) = some pkVal →
      editRow db t row =
        .exec ("UPDATE " ++ t ++ " SET " ++
            String.intercalate ","
              ((row.filter fun kv => kv.1 != findPrimaryKey cols).map
                fun kv => kv.1 ++ " = ?") ++
            " WHERE " ++ findPrimaryKey cols ++ " = ?")
          (((row.filter fun kv => kv.1 != findPrimaryKey cols).map
            fun kv => kv.2) ++ [pkVal]) ∧
      ((row.filter fun kv => kv.1 != findPrimaryKey cols).map
          fun kv => kv.1) =
        (row.map fun kv => kv.1).filter (fun k => k != findPrimaryKey cols) ∧
      findPrimaryKey cols ∉
        ((row.filter fun kv => kv.1 != findPrimaryKey cols).map
          fun kv => kv.1) ∧
      ((((row.filter fun kv => kv.1 != findPrimaryKey cols).map
          fun kv => kv.2) ++ [pkVal]).getLast? = some pkVal) := by
  intro db t cols row pkVal hlt hpk hrow
  refine ⟨?_, mapFst_filter (fun k => k != findPrimaryKey cols) row, ?_,
    List.getLast?_concat _⟩
  · unfold editRow
    rw [hlt]
    simp only [if_neg hpk, hrow]
  · intro hmem
    simp only [List.mem_map] at hmem
    obtain ⟨kv, hkv, hfst⟩ := hmem
    have hp := List.of_mem_filter hkv
    rw [hfst] at hp
    simp at hp

/-- Witness for C6: updating `users` row `id=1` with a new `email`. -/
theorem updateRowPartialSemanticsWitness :
    editRow usersCatalog "users" [("id", "1"), ("email", "x@y.com")] =
      .exec "UPDATE users SET email = ? WHERE id = ?" ["x@y.com", "1"] := by
  have h := (updateRowPartialSemantics usersCatalog "users" usersColumns
    [("id", "1"), ("email", "x@y.com")] "1" rfl (by decide) rfl).1
  simpa [usersColumns, findPrimaryKey] using h

/-- C7: an `updateRow` call whose row mapping lacks the primary-key field
fails with an error and issues no UPDATE statement. -/
theorem updateRowMissingPrimaryKeyRejected :
    ∀ (db : Catalog) (t : String) (cols : List ColumnInfo)
      (row : List (String × String)),
      lookupTable db t = some cols →
      findPrimaryKey cols ≠ "" →
      lookupRow row (findPrimaryKey cols) = none →
      editRow db t row = .err "row does not contain primary key" ∧
      ∀ (q : String) (binds : List String),
        editRow db t row ≠ .exec q binds := by
  intro db t cols row hlt hpk hrow
  have h : editRow db t row = .err "row does not contain primary key" := by
    unfold editRow
    rw [hlt]
    simp only [if_neg hpk, hrow]
  refine ⟨h, ?_⟩
  intro q binds hex
  rw [h] at hex
  exact EditResult.noConfusion hex

/-- Witness for C7: updating `users` without supplying `id`. -/
theorem updateRowMissingPrimaryKeyRejectedWitness :
    editRow usersCatalog "users" [("email", "x@y.com")] =
      .err "row does not contain primary key" :=
  (updateRowMissingPrimaryKeyRejected usersCatalog "users" usersColumns
    [("email", "x@y.com")] rfl (by decide) rfl).1

/-- Helper: a column list with no `pk = 1` entry scans to the empty
primary-key name. -/
theorem findPrimaryKey_eq_empty {cols : List ColumnInfo}
    (h : ∀ c ∈ cols, c.pk ≠ 1) : findPrimaryKey cols = "" := by
  induction cols with
  | nil => rfl
  | cons c rest ih =>
    rw [findPrimaryKey, if_neg (h c (List.mem_cons_self c rest))]
    exact ih (fun x hx => h x (List.mem_cons_of_mem c hx))

/-- C8 counterexample: against the composite-key table `t` (`a` has
`table_info` `pk = 1`, `b` has `pk = 2`) both write operations proceed —
no configuration error — using `a` alone as the key. -/
theorem compositeKeyNotRejected :
    batchDelete compositeCatalog "t" ["1"] =
      .exec "DELETE FROM t WHERE a IN (?)" ["1"] ∧
    (∀ msg, batchDelete compositeCatalog "t" ["1"] ≠ .err msg) ∧
    editRow compositeCatalog "t" [("a", "1"), ("b", "2")] =
      .exec "UPDATE t SET b = ? WHERE a = ?" ["2", "1"] := by
  refine ⟨rfl, ?_, rfl⟩
  intro msg h
  exact DeleteResult.noConfusion h

/-- C8 (amended): a write operation (`updateRow`, or `deleteRows` with
non-empty ids) against a table with no primary-key column fails with a
configuration error; but a composite primary key is not detected — the
first column reported with `pk = 1` is used as the key and the mutation
proceeds. -/
theorem writeOpsRequirePrimaryKey :
    (∀ (db : Catalog) (t : String) (cols : List ColumnInfo)
      (ids : List String) (row : List (String × String)),
      lookupTable db t = some cols →
      (∀ c ∈ cols, c.pk ≠ 1) →
      ids ≠ [] →
      batchDelete db t ids =
        .err ("table " ++ t ++ " does not have a primary key") ∧
      editRow db t row =
        .err ("table " ++ t ++ " does not have a primary key")) ∧
    batchDelete compositeCatalog "t" ["1"] =
      .exec "DELETE FROM t WHERE a IN (?)" ["1"] := by
  refine ⟨?_, rfl⟩
  intro db t cols ids row hlt hnopk hids
  have hpk := findPrimaryKey_eq_empty hnopk
  constructor
  · unfold batchDelete
    rw [if_neg (fun h => hids (List.length_eq_zero.mp h)), hlt]
    simp [hpk]
  · unfold editRow
    rw [hlt]
    simp [hpk]

/-- Witness for the amended C8 at a table whose single column is not a
primary key. -/
theorem writeOpsRequirePrimaryKeyWitness :
    batchDelete [("nokey", [⟨0, "a", "INTEGER", 1, 0⟩])] "nokey" ["1"] =
      .err ("table " ++ "nokey" ++ " does not have a primary key") ∧
    editRow [("nokey", [⟨0, "a", "INTEGER", 1, 0⟩])] "nokey" [("a", "1")] =
      .err ("table " ++ "nokey" ++ " does not have a primary key") :=
  writeOpsRequirePrimaryKey.1 [("nokey", [⟨0, "a", "INTEGER", 1, 0⟩])]
    "nokey" [⟨0, "a", "INTEGER", 1, 0⟩] ["1"] [("a", "1")] rfl
    (by intro c hc; simp at hc; rw [hc]; decide) (by simp)

/-- C9: a `deleteRows` request naming a table absent from the catalog gets
the BadRequest response (400, `invalid input`), not an InternalError, and
no DELETE statement is issued. -/
theorem deleteRowsUnknownTableBadRequest :
    ∀ (db : Catalog) (params : List (String × Val)) (t : String)
      (ids : List String),
      lookupVal params "tableName" = some (.vstr t) →
      convertToStrSlice (lookupVal params "ids") = some ids →
      lookupTable db t = none →
      deleteRowsHandler db params = ⟨400, "Bad request: invalid input", []⟩ ∧
      (deleteRowsHandler db params).status ≠ 500 ∧
      (deleteRowsHandler db params).issued = [] := by
  intro db params t ids h1 h2 h3
  have h : deleteRowsHandler db params =
      ⟨400, "Bad request: invalid input", []⟩ := by
    unfold deleteRowsHandler
    rw [h1, h2]
    have hex : checkTableExists db t = false := by
      simp [checkTableExists, h3]
    simp [hex]
  refine ⟨h, ?_, ?_⟩
  · rw [h]
    decide
  · rw [h]

/-- Witness for C9: deleting from the unknown table `ghost`. -/
theorem deleteRowsUnknownTableBadRequestWitness :
    deleteRowsHandler ([] : Catalog)
        [("tableName", .vstr "ghost"), ("ids", .vlist [.vstr "1"])] =
      ⟨400, "Bad request: invalid input", []⟩ :=
  (deleteRowsUnknownTableBadRequest []
    [("tableName", .vstr "ghost"), ("ids", .vlist [.vstr "1"])]
    "ghost" ["1"] rfl rfl rfl).1

end SqliteAdmin
